import Mathlib

/-!
Shallow embedding of `src/lib/libmpi/MpiHost.cpp` (FreeNOS MPI host backend).

The registry (`m_nodes`) is modelled as a `List Node`, the UDP transport as
explicit oracles: a `Bool` (or rank-indexed `Nat → Bool`) for each `sendto`
outcome, and a list of `RecvOutcome` for the successive datagrams delivered
by `recvfrom` (an exhausted list models the indefinite blocking of a
`recvfrom` with no datagram ever arriving, hence the `Option` results).
Every transport interaction is recorded as an `Event` so that "performs no
transport call" style properties are observable.

Types and constants declared in headers that are not part of the sources
(`MpiProxy.h`, `MpiHost.h`, mpi.h, libstd string utilities) are modelled
from the spec where noted.
-/

namespace MpiHost

/-- Modelled from the spec: the flat result enumeration (mpi.h is not in the
sources): success, bad-argument, I/O failure, out-of-memory, invalid-rank,
unsupported-data-representation. -/
inductive MpiResult where
  | MPI_SUCCESS
  | MPI_ERR_ARG
  | MPI_ERR_IOFAIL
  | MPI_ERR_NO_MEM
  | MPI_ERR_RANK
  | MPI_ERR_UNSUPPORTED_DATAREP
deriving DecidableEq, Repr

export MpiResult (MPI_SUCCESS MPI_ERR_ARG MPI_ERR_IOFAIL MPI_ERR_NO_MEM MPI_ERR_RANK MPI_ERR_UNSUPPORTED_DATAREP)

/-- Modelled from the spec: the packet operation codes of `MpiProxy.h`
(Send, Receive, Execute, Terminate). -/
inductive MpiOp where
  | MpiOpSend
  | MpiOpRecv
  | MpiOpExec
  | MpiOpTerminate
deriving DecidableEq, Repr

/-- The MPI datatype argument. `MPI_INT` and `MPI_UNSIGNED_CHAR` are the two
values the code supports; `other c` stands for any further value of the
enumeration, which the code rejects in its `default` switch branches. -/
inductive MPI_Datatype where
  | MPI_INT
  | MPI_UNSIGNED_CHAR
  | other (code : Nat)
deriving DecidableEq, Repr

/-- One registry entry (`MpiHost::Node`): 32-bit network-order IP address,
16-bit UDP port, core identifier. -/
structure Node where
  ipAddress : Nat
  udpPort : Nat
  coreId : Nat
deriving DecidableEq, Repr

/-- Modelled from the spec: the fixed packet header of `MpiProxy.h` with
fields operation, result, rankId, datatype, datacount, coreId, coreCount.
Fields the code leaves unset at a given construction site are filled with
fixed defaults here (the C++ leaves them uninitialized); no theorem below
depends on such a field. -/
structure Header where
  operation : MpiOp
  result : MpiResult
  rankId : Nat
  datatype : MPI_Datatype
  datacount : Nat
  coreId : Nat
  coreCount : Nat
deriving DecidableEq, Repr

/-- Modelled from the spec: `MpiProxy::MaximumPacketSize` and
`sizeof(MpiProxy::Header)` are fixed constants whose concrete values live in
the missing `MpiProxy.h`; the spec's size-check properties quantify over the
configured maximum, so both are kept as parameters. -/
structure MpiConfig where
  maxPacketSize : Nat
  headerSize : Nat
deriving DecidableEq, Repr

/-- A transport interaction: a datagram handed to `sendto` (with target node
id, header and payload bytes), or one `recvfrom` call. -/
inductive Event where
  | sent (nodeId : Nat) (hdr : Header) (payload : List Nat)
  | recvd
deriving DecidableEq, Repr

/-- Outcome of one `recvfrom` call: an I/O error, or a delivered datagram
(header plus payload bytes). -/
inductive RecvOutcome where
  | ioError
  | datagram (hdr : Header) (payload : List Nat)
deriving DecidableEq, Repr

/-- `m_nodes.get(i)`: the C++ index is a `Size` (unsigned), so a negative
`int` rank converts to a huge index and is never found. -/
def nodesGet (reg : List Node) (i : Int) : Option Node :=
  if 0 ≤ i then reg.get? i.toNat else none

/-- Element byte width per datatype, as computed by the `switch` in
`MpiHost::send` (`sizeof(int)` = 4, `sizeof(u8)` = 1); `none` for the
rejected `default` branch. -/
def datasize : MPI_Datatype → Option Nat
  | .MPI_INT => some 4
  | .MPI_UNSIGNED_CHAR => some 1
  | .other _ => none

/-! ## String utilities (libstd, not in the sources)

`String::split` is implemented with `strtok_r` in libstd, so it drops empty
tokens: consecutive, leading and trailing delimiters produce nothing. The
spec's concrete scenario (hosts text ending in a newline yielding exactly two
lines) forces exactly this behaviour. Text is modelled as `List Char`. -/

/-- Modelled from the spec: `strtok`-style splitting, accumulating the
current token in reverse in `acc` and dropping empty tokens. -/
def splitAux (d : Char) : List Char → List Char → List (List Char)
  | [], acc => if acc = [] then [] else [acc.reverse]
  | c :: cs, acc =>
    if c = d then
      if acc = [] then splitAux d cs []
      else acc.reverse :: splitAux d cs []
    else splitAux d cs (c :: acc)

/-- Modelled from the spec: `String::split(delimiter)` — the list of
non-empty maximal delimiter-free runs of `s`. -/
def splitNE (d : Char) (s : List Char) : List (List Char) :=
  splitAux d s []

/-- Modelled from the spec: `atoi` on the textual field — the value of the
leading run of decimal digits ("base-10 non-negative integers with no
explicit range validation"). -/
def atoiAux : List Char → Nat → Nat
  | [], acc => acc
  | c :: cs, acc => if c.isDigit then atoiAux cs (acc * 10 + (c.toNat - 48)) else acc

/-- Modelled from the spec: `atoi`. -/
def atoi (s : List Char) : Nat := atoiAux s 0

/-- The 32-bit network-order (big-endian) encoding of a dotted quad. -/
def ipv4 (a b c d : Nat) : Nat :=
  (a % 256) * 16777216 + (b % 256) * 65536 + (c % 256) * 256 + d % 256

/-- Modelled from the spec: `inet_addr` — parses a dotted IPv4 address into
its 32-bit network-order value, `INADDR_NONE` (all ones) when the text is
not four dot-separated fields. -/
def inet_addr (s : List Char) : Nat :=
  match (splitNE '.' s).map atoi with
  | [a, b, c, d] => ipv4 a b c d
  | _ => 4294967295

/-! ## Hosts file parsing (`MpiHost::parseHostsFile`) -/

/-- The synthetic local/master node registered by `MpiHost::initialize`. -/
def masterNode : Node := { ipAddress := 0, udpPort := 0, coreId := 0 }

/-- Node built from the three fields of one hosts line:
`ipAddress = inet_addr(fields[0])`, `udpPort = atoi(fields[1])`,
`coreId = atoi(fields[2])`. -/
def mkNode (fields : List (List Char)) : Node :=
  { ipAddress := inet_addr (fields.getD 0 [])
    udpPort := atoi (fields.getD 1 [])
    coreId := atoi (fields.getD 2 []) }

/-- The per-line loop of `MpiHost::parseHostsFile`: each line must split on
`:` into exactly 3 fields, otherwise the whole parse aborts with
`MPI_ERR_ARG`; otherwise the node is appended to the registry. Returns the
result code together with the registry state. -/
def parseLines (reg : List Node) : List (List Char) → MpiResult × List Node
  | [] => (MPI_SUCCESS, reg)
  | line :: rest =>
    let nodeLine := splitNE ':' line
    if nodeLine.length ≠ 3 then (MPI_ERR_ARG, reg)
    else parseLines (reg ++ [mkNode nodeLine]) rest

/-- `MpiHost::parseHostsFile` on file contents already read into memory:
split the contents into lines and run the per-line loop. -/
def parseHostsFile (reg : List Node) (contents : List Char) : MpiResult × List Node :=
  parseLines reg (splitNE '\n' contents)

/-- The registry-building part of `MpiHost::initialize`: insert the master
node as rank 0, then parse the hosts file contents. (The subsequent socket
creation and process launch never touch the registry.) -/
def initializeRegistry (contents : List Char) : MpiResult × List Node :=
  parseHostsFile [masterNode] contents

/-! ## Typed element encoding

Payloads are byte lists. `MPI_INT` elements occupy 4 bytes each,
little-endian with two's complement (the i386/ARM targets of the code);
`MPI_UNSIGNED_CHAR` elements one byte each. -/

/-- Two's-complement signed value of an unsigned 32-bit reading. -/
def toSigned32 (u : Nat) : Int :=
  if u % 4294967296 < 2147483648 then Int.ofNat (u % 4294967296)
  else Int.ofNat (u % 4294967296) - 4294967296

/-- Read an `int` from payload bytes starting at byte offset `j`
(little-endian; a `u8` byte is reduced mod 256). -/
def readIntLE (payload : List Nat) (j : Nat) : Int :=
  toSigned32 (payload.getD j 0 % 256
    + (payload.getD (j + 1) 0 % 256) * 256
    + (payload.getD (j + 2) 0 % 256) * 65536
    + (payload.getD (j + 3) 0 % 256) * 16777216)

/-- Little-endian 4-byte encoding of one `int` element. -/
def encodeInt (x : Int) : List Nat :=
  [(x.emod 4294967296).toNat % 256,
   (x.emod 4294967296).toNat / 256 % 256,
   (x.emod 4294967296).toNat / 65536 % 256,
   (x.emod 4294967296).toNat / 16777216 % 256]

/-- Contiguous byte encoding of an element sequence at the datatype's
element width — this is how `MpiHost::send` lays elements out after the
header (`MemoryBlock::copy` of `count * datasize` buffer bytes) and how the
symmetric peer packs a Receive reply. Unsupported datatypes encode nothing
(the code never reaches the copy for them). -/
def encodeElems : MPI_Datatype → List Int → List Nat
  | .MPI_INT, elems => (elems.map encodeInt).flatten
  | .MPI_UNSIGNED_CHAR, elems => elems.map (fun x => (x.emod 256).toNat)
  | .other _, _ => []

/-! ## Rank and size queries -/

/-- `MpiHost::getCommRank`: writes 0 into the output rank, returns success,
for any communicator. -/
def getCommRank (comm : Nat) : MpiResult × Nat :=
  (MPI_SUCCESS, 0)

/-- `MpiHost::getCommSize`: writes `m_nodes.count()` into the output size,
returns success, for any communicator. -/
def getCommSize (reg : List Node) (comm : Nat) : MpiResult × Nat :=
  (MPI_SUCCESS, reg.length)

/-! ## Point-to-point send (`MpiHost::send`) -/

/-- The Send-request header built by `MpiHost::send`: operation `MpiOpSend`,
result 0, `rankId = dest`, the datatype and element count. `coreId` and
`coreCount` are left uninitialized by the code (0 here). -/
def sendHdr (dest : Nat) (datatype : MPI_Datatype) (count : Nat) : Header :=
  { operation := .MpiOpSend, result := MPI_SUCCESS, rankId := dest
    datatype := datatype, datacount := count, coreId := 0, coreCount := 0 }

/-- `MpiHost::send`, in source order: datatype switch (`MPI_ERR_ARG` on the
`default` branch), the packet-size check
(`(count * datasize) + sizeof(Header) > MaximumPacketSize` → `MPI_ERR_ARG`),
the destination lookup (`MPI_ERR_ARG` when absent), then one `sendPacket`
whose `sendto` outcome is the oracle `sendtoOk` (`MPI_ERR_IOFAIL` on failure).

The product `count * datasize` is `int * Size`, i.e. 32-bit unsigned
arithmetic: it wraps mod 2^32 (e.g. `count = 2^30` ints gives 0), while the
subsequent `+ sizeof(Header)` promotes to 64-bit `size_t` and does not wrap;
the `MemoryBlock::copy` byte count is the same wrapped product, so the
payload is the first `(count * datasize) mod 2^32` bytes of the buffer's
element encoding. Returns the result code and the transport events
performed. -/
def send (cfg : MpiConfig) (reg : List Node) (sendtoOk : Bool)
    (buf : List Int) (count : Nat) (datatype : MPI_Datatype) (dest : Int) :
    MpiResult × List Event :=
  match datasize datatype with
  | none => (MPI_ERR_ARG, [])
  | some dsize =>
    if cfg.maxPacketSize < (count * dsize) % 4294967296 + cfg.headerSize then (MPI_ERR_ARG, [])
    else match nodesGet reg dest with
      | none => (MPI_ERR_ARG, [])
      | some _ =>
        let payload := (encodeElems datatype buf).take ((count * dsize) % 4294967296)
        let ev := Event.sent dest.toNat (sendHdr dest.toNat datatype count) payload
        if sendtoOk then (MPI_SUCCESS, [ev]) else (MPI_ERR_IOFAIL, [ev])

/-! ## Point-to-point receive (`MpiHost::receive`) -/

/-- The Receive-request header built by `MpiHost::receive`: operation
`MpiOpRecv`, `rankId = source`, the datatype and requested count. `result`,
`coreId`, `coreCount` are left unset by the code. -/
def recvReqHdr (source : Nat) (datatype : MPI_Datatype) (count : Nat) : Header :=
  { operation := .MpiOpRecv, result := MPI_SUCCESS, rankId := source
    datatype := datatype, datacount := count, coreId := 0, coreCount := 0 }

/-- The inner copy loop of `MpiHost::receive`
(`for (Size j = 0; j < header->datacount; j++, i++)`). The source element
pointer is `((const u8 *)(header + 1)) + j` — the payload byte at offset
`j`, NOT `j * datasize`: for `MPI_INT` the code reads a 4-byte `int` at byte
offset `j`. `k` counts the elements still to copy (`datacount - j`). On an
unsupported datatype the call aborts with the buffer as written so far. -/
def copyLoop (datatype : MPI_Datatype) (payload : List Nat) :
    Nat → Nat → List Int → Nat → Except (MpiResult × List Int) (List Int × Nat)
  | _, 0, buf, i => .ok (buf, i)
  | j, k + 1, buf, i =>
    match datatype with
    | .MPI_INT => copyLoop datatype payload (j + 1) k (buf.set i (readIntLE payload j)) (i + 1)
    | .MPI_UNSIGNED_CHAR =>
        copyLoop datatype payload (j + 1) k (buf.set i (Int.ofNat (payload.getD j 0 % 256))) (i + 1)
    | .other _ => .error (MPI_ERR_UNSUPPORTED_DATAREP, buf)

/-- The reassembly loop of `MpiHost::receive` (`for (int i = 0; i < count;)`):
while fewer than `count` elements have been copied, block for one datagram
(`none` models blocking forever once the oracle is exhausted), fail with the
transport's `MPI_ERR_IOFAIL`, skip any datagram whose operation is not
`MpiOpRecv`, otherwise copy `header->datacount` elements. -/
def recvLoop (datatype : MPI_Datatype) (count : Nat) :
    List RecvOutcome → List Int → Nat → List Event →
    Option (MpiResult × List Int × List Event)
  | [], buf, i, evs =>
    if i < count then none else some (MPI_SUCCESS, buf, evs)
  | o :: rest, buf, i, evs =>
    if i < count then
      match o with
      | .ioError => some (MPI_ERR_IOFAIL, buf, evs ++ [Event.recvd])
      | .datagram hdr payload =>
        if hdr.operation ≠ MpiOp.MpiOpRecv then
          recvLoop datatype count rest buf i (evs ++ [Event.recvd])
        else
          match copyLoop datatype payload 0 hdr.datacount buf i with
          | .error (e, buf') => some (e, buf', evs ++ [Event.recvd])
          | .ok (buf', i') => recvLoop datatype count rest buf' i' (evs ++ [Event.recvd])
    else some (MPI_SUCCESS, buf, evs)

/-- `MpiHost::receive`: source-rank lookup (`MPI_ERR_RANK` when absent), send
of the Receive request (header only; `MPI_ERR_IOFAIL` if `sendto` fails), then
the reassembly loop. Returns result code, final output buffer and the
transport events. -/
def receive (cfg : MpiConfig) (reg : List Node) (sendtoOk : Bool)
    (ins : List RecvOutcome) (buf : List Int) (count : Nat)
    (datatype : MPI_Datatype) (source : Int) :
    Option (MpiResult × List Int × List Event) :=
  match nodesGet reg source with
  | none => some (MPI_ERR_RANK, buf, [])
  | some _ =>
    let ev := Event.sent source.toNat (recvReqHdr source.toNat datatype count) []
    if sendtoOk then recvLoop datatype count ins buf 0 [ev]
    else some (MPI_ERR_IOFAIL, buf, [ev])

/-! ## Termination handshake (`MpiHost::terminate`) -/

/-- The Terminate request header: only `operation` is assigned by the code
(the rest of the static packet buffer is left as is). -/
def termHdr : Header :=
  { operation := .MpiOpTerminate, result := MPI_SUCCESS, rankId := 0
    datatype := .MPI_INT, datacount := 0, coreId := 0, coreCount := 0 }

/-- The ranks `1 .. count()-1` iterated by `MpiHost::terminate` and
`MpiHost::startProcesses`, in registry order. -/
def termRanks (reg : List Node) : List Nat :=
  List.range' 1 (reg.length - 1)

/-- The per-rank loop of `MpiHost::terminate`: for each rank, `sendPacket`
(node lookup then `sendto`, whose outcome is `sendOk rank`), then one
`receivePacket`; transport failures return immediately, while a reply whose
operation is not `MpiOpTerminate` or whose result is non-success is only
logged (`continue`) — the three datagram branches of the source all proceed
to the next rank. -/
def terminateGo (reg : List Node) (sendOk : Nat → Bool) :
    List Nat → List RecvOutcome → List Event → Option (MpiResult × List Event)
  | [], _, evs => some (MPI_SUCCESS, evs)
  | r :: rs, ins, evs =>
    match nodesGet reg (Int.ofNat r) with
    | none => some (MPI_ERR_ARG, evs)
    | some _ =>
      let evs := evs ++ [Event.sent r termHdr []]
      if sendOk r then
        match ins with
        | [] => none
        | o :: ins' =>
          let evs := evs ++ [Event.recvd]
          match o with
          | .ioError => some (MPI_ERR_IOFAIL, evs)
          | .datagram hdr _ =>
            if hdr.operation ≠ MpiOp.MpiOpTerminate then terminateGo reg sendOk rs ins' evs
            else if hdr.result ≠ MPI_SUCCESS then terminateGo reg sendOk rs ins' evs
            else terminateGo reg sendOk rs ins' evs
      else some (MPI_ERR_IOFAIL, evs)

/-- `MpiHost::terminate`: run the per-rank loop over ranks `1..count()-1`
and return `MPI_SUCCESS` when the sweep completes. -/
def terminate (reg : List Node) (sendOk : Nat → Bool) (ins : List RecvOutcome) :
    Option (MpiResult × List Event) :=
  terminateGo reg sendOk (termRanks reg) ins []

/-! ## Remote process launch (`MpiHost::startProcesses`) -/

/-- Modelled from the spec: `basename(3)` — the component of the path after
its last slash ("program basename of the first forwarded argument"). -/
def basenameOf (s : List Char) : List Char :=
  (splitNE '/' s).getLastD s

/-- The command line built by `MpiHost::startProcesses`: basename of
`argv[0]`, then a space, then the remaining arguments space-joined (the
source emits a separator after `argv[0]` only when `argc > 1`, and between
consecutive extra arguments). -/
def joinSpaces : List (List Char) → List Char
  | [] => []
  | [x] => x
  | x :: xs => x ++ [' '] ++ joinSpaces xs

/-- The full command line of `MpiHost::startProcesses`. -/
def buildCmdline : List (List Char) → List Char
  | [] => []
  | prog :: rest =>
    if rest = [] then basenameOf prog
    else basenameOf prog ++ [' '] ++ joinSpaces rest

/-- The Execute header built for rank `r`: operation `MpiOpExec`, result 0,
`rankId = r`, `coreId` from the node, `coreCount = m_nodes.count()`.
`datatype`/`datacount` are left unset by the code. -/
def execHdr (r coreId coreCount : Nat) : Header :=
  { operation := .MpiOpExec, result := MPI_SUCCESS, rankId := r
    datatype := .MPI_INT, datacount := 0, coreId := coreId, coreCount := coreCount }

/-- The payload bytes handed to `sendto` for one Execute packet. The copy
into the packet buffer is bounded by `sizeof(packet) - sizeof(Header)` —
the command line truncated to `MaximumPacketSize - headerSize` — but the
send size is `sizeof(Header) + cmdline.length()` with no truncation, so an
over-capacity command line makes `sendto` read
`cmdline.length - (MaximumPacketSize - headerSize)` bytes past the packet
buffer: those unspecified bytes are the oracle `junk`. A command line that
fits the capacity is sent whole with no junk. -/
def execPayload (cfg : MpiConfig) (cmdline : List Char) (junk : List Nat) : List Nat :=
  (cmdline.map Char.toNat).take (cfg.maxPacketSize - cfg.headerSize) ++
    junk.take (cmdline.length - (cfg.maxPacketSize - cfg.headerSize))

/-- The per-rank loop of `MpiHost::startProcesses`: for each rank, build the
Execute packet (payload per `execPayload`) and `sendPacket` it; the first
failing send returns immediately. -/
def startGo (cfg : MpiConfig) (reg : List Node) (cmdline : List Char)
    (junk : List Nat) (sendOk : Nat → Bool) :
    List Nat → List Event → MpiResult × List Event
  | [], evs => (MPI_SUCCESS, evs)
  | r :: rs, evs =>
    match nodesGet reg (Int.ofNat r) with
    | none => (MPI_ERR_ARG, evs)
    | some node =>
      let evs := evs ++ [Event.sent r (execHdr r node.coreId reg.length)
        (execPayload cfg cmdline junk)]
      if sendOk r then startGo cfg reg cmdline junk sendOk rs evs
      else (MPI_ERR_IOFAIL, evs)

/-- `MpiHost::startProcesses`: build the command line once, then loop over
ranks `1..count()-1` in registry order. -/
def startProcesses (cfg : MpiConfig) (reg : List Node) (sendOk : Nat → Bool)
    (junk : List Nat) (argv : List (List Char)) : MpiResult × List Event :=
  startGo cfg reg (buildCmdline argv) junk sendOk (termRanks reg) []

/-! ## Helper lemmas -/

/-- A rank outside `[0, count())` — negative or too large — is never found
by `m_nodes.get`. -/
theorem nodesGet_eq_none {reg : List Node} {r : Int}
    (h : r < 0 ∨ (reg.length : Int) ≤ r) : nodesGet reg r = none := by
  rcases h with h | h
  · simp [nodesGet, not_le.mpr h]
  · have h0 : 0 ≤ r := le_trans (Int.ofNat_nonneg _) h
    have hlen : reg.length ≤ r.toNat := by omega
    simp only [nodesGet, if_pos h0]
    exact List.get?_eq_none.mpr hlen

/-- The canonical well-formed multi-line text: every line terminated by the
delimiter (for hosts files, a newline). -/
def joinD (d : Char) (lines : List (List Char)) : List Char :=
  (lines.map (· ++ [d])).flatten

/-- `splitAux` consumes a delimiter-free prefix whole, accumulating it. -/
theorem splitAux_no_delim (d : Char) (l : List Char) :
    ∀ acc rest, (∀ c ∈ l, c ≠ d) →
      splitAux d (l ++ rest) acc = splitAux d rest (l.reverse ++ acc) := by
  induction l with
  | nil => intro acc rest _; simp
  | cons c cs ih =>
    intro acc rest h
    have hc : c ≠ d := h c (List.mem_cons_self _ _)
    have ih' := ih (c :: acc) rest (fun x hx => h x (List.mem_cons_of_mem _ hx))
    simpa [splitAux, hc] using ih'

/-- Splitting a delimiter-terminated join of non-empty, delimiter-free lines
recovers exactly those lines. -/
theorem splitNE_joinD (d : Char) : ∀ lines : List (List Char),
    (∀ l ∈ lines, l ≠ [] ∧ ∀ c ∈ l, c ≠ d) →
    splitNE d (joinD d lines) = lines := by
  intro lines
  induction lines with
  | nil => intro _; rfl
  | cons l ls ih =>
    intro h
    obtain ⟨hne, hnd⟩ := h l (List.mem_cons_self _ _)
    have hrev : l.reverse ≠ [] := by simpa using hne
    have ih' := ih (fun x hx => h x (List.mem_cons_of_mem _ hx))
    show splitAux d (joinD d (l :: ls)) [] = l :: ls
    have hjoin : joinD d (l :: ls) = l ++ (d :: joinD d ls) := by simp [joinD]
    rw [hjoin, splitAux_no_delim d l [] (d :: joinD d ls) hnd]
    simp [splitAux, hrev]
    exact ih'

/-- The per-line parse loop succeeds on 3-field lines, appending their nodes
in order. -/
theorem parseLines_ok : ∀ (lines : List (List Char)) (reg : List Node),
    (∀ l ∈ lines, (splitNE ':' l).length = 3) →
    parseLines reg lines =
      (MPI_SUCCESS, reg ++ lines.map (fun l => mkNode (splitNE ':' l))) := by
  intro lines
  induction lines with
  | nil => intro reg _; simp [parseLines]
  | cons l ls ih =>
    intro reg h
    have h3 := h l (List.mem_cons_self _ _)
    have ih' := ih (reg ++ [mkNode (splitNE ':' l)]) (fun x hx => h x (List.mem_cons_of_mem _ hx))
    simp [parseLines, h3, ih']

/-- The per-line parse loop aborts with `MPI_ERR_ARG` at the first line that
does not split into exactly 3 fields, having appended only the nodes of the
preceding lines. -/
theorem parseLines_abort : ∀ (ws : List (List Char)) (b : List Char)
    (rest : List (List Char)) (reg : List Node),
    (∀ l ∈ ws, (splitNE ':' l).length = 3) →
    (splitNE ':' b).length ≠ 3 →
    parseLines reg (ws ++ b :: rest) =
      (MPI_ERR_ARG, reg ++ ws.map (fun l => mkNode (splitNE ':' l))) := by
  intro ws
  induction ws with
  | nil => intro b rest reg _ hb; simp [parseLines, hb]
  | cons w ws ih =>
    intro b rest reg h hb
    have h3 := h w (List.mem_cons_self _ _)
    have ih' := ih b rest (reg ++ [mkNode (splitNE ':' w)])
      (fun x hx => h x (List.mem_cons_of_mem _ hx)) hb
    simp [parseLines, h3, ih']

/-! ## Claim theorems -/

/-- C10: for every communicator argument, `getCommRank` writes 0 into the
output rank and returns success — the host process itself is unconditionally
rank 0, independent of the registry. -/
theorem getCommRank_always_zero (comm : Nat) : getCommRank comm = (MPI_SUCCESS, 0) := rfl

/-- C2 counterexample: with a one-node registry, `send` to the out-of-range
rank 1 fails with `MPI_ERR_ARG` (BadArgument), not the claimed
`MPI_ERR_RANK` (InvalidRank). -/
theorem send_invalid_rank_returns_arg :
    send ⟨1448, 16⟩ [masterNode] true [3] 1 .MPI_UNSIGNED_CHAR 1 = (MPI_ERR_ARG, []) ∧
    MPI_ERR_ARG ≠ MPI_ERR_RANK := by decide

/-- C2 (amended): for every rank outside `[0, count())`, `receive` fails
with InvalidRank (`MPI_ERR_RANK`) and `send` fails with BadArgument
(`MPI_ERR_ARG`) — the `send` path answers a missing destination with its
generic argument error — and neither performs any transport call. -/
theorem send_receive_invalid_rank (cfg : MpiConfig) (reg : List Node) (sok : Bool)
    (buf : List Int) (count : Nat) (datatype : MPI_Datatype) (r : Int)
    (ins : List RecvOutcome) (rbuf : List Int)
    (h : r < 0 ∨ (reg.length : Int) ≤ r) :
    send cfg reg sok buf count datatype r = (MPI_ERR_ARG, []) ∧
    receive cfg reg sok ins rbuf count datatype r = some (MPI_ERR_RANK, rbuf, []) := by
  have hn : nodesGet reg r = none := nodesGet_eq_none h
  constructor
  · cases datatype <;> simp only [send, datasize] <;> split <;> simp [hn]
  · simp [receive, hn]

/-- C2 witness: the amended statement at the concrete out-of-range rank 1 of
a one-node registry. -/
theorem send_receive_invalid_rank_witness :
    send ⟨1448, 16⟩ [masterNode] true [3] 1 .MPI_UNSIGNED_CHAR 1 = (MPI_ERR_ARG, []) ∧
    receive ⟨1448, 16⟩ [masterNode] true [] [0] 1 .MPI_UNSIGNED_CHAR 1 =
      some (MPI_ERR_RANK, [0], []) :=
  send_receive_invalid_rank ⟨1448, 16⟩ [masterNode] true [3] 1 .MPI_UNSIGNED_CHAR 1 [] [0]
    (by decide)

/-- The single-packet peer reply exhibiting the `MPI_INT` stride slip: a
Receive-operation packet carrying `datacount = 2` int elements `[1, 2]`,
encoded contiguously at 4 bytes per element (little-endian) exactly as
`MpiHost::send` lays out int elements on the symmetric path. -/
def intReplyPacket : RecvOutcome :=
  RecvOutcome.datagram
    { operation := .MpiOpRecv, result := MPI_SUCCESS, rankId := 1
      datatype := .MPI_INT, datacount := 2, coreId := 0, coreCount := 0 }
    (encodeElems .MPI_INT [1, 2])

/-- C1: the round-trip FAILS for `MPI_INT`. The peer reply packet carries
the two requested ints `[1, 2]` as the contiguous bytes
`[1,0,0,0, 2,0,0,0]`, but `MpiHost::receive` reads int element `j` at
payload byte offset `j` (`((const u8 *)(header + 1)) + j`) instead of
`j * sizeof(int)`, so the call "succeeds" with buffer `[1, 33554432]`
(33554432 = 2 · 2²⁴, the bytes `[0,0,0,2]` at offset 1) instead of the
original sequence `[1, 2]`. -/
theorem receive_int_stride_divergence :
    encodeElems .MPI_INT [1, 2] = [1, 0, 0, 0, 2, 0, 0, 0] ∧
    receive ⟨1448, 16⟩
        [masterNode, { ipAddress := ipv4 10 0 0 2, udpPort := 9000, coreId := 0 }]
        true [intReplyPacket] [0, 0] 2 .MPI_INT 1 =
      some (MPI_SUCCESS, [1, 33554432],
        [Event.sent 1 (recvReqHdr 1 .MPI_INT 2) [], Event.recvd]) ∧
    ([1, 33554432] : List Int) ≠ [1, 2] := by decide

/-- C5: for every well-formed hosts text of K lines each of the exact form
`ip:port:core` (newline-terminated lines, each splitting on `:` into exactly
3 fields), initialization succeeds, the registry is the synthetic master
node (`ipAddress = 0, udpPort = 0, coreId = 0`) at rank 0 followed by the
parsed nodes in file order at ranks 1..K, and the registry count is K+1. -/
theorem initializeRegistry_wellformed (lines : List (List Char))
    (h : ∀ l ∈ lines, ('\n' ∉ l) ∧ (splitNE ':' l).length = 3) :
    initializeRegistry (joinD '\n' lines) =
      (MPI_SUCCESS, masterNode :: lines.map (fun l => mkNode (splitNE ':' l))) ∧
    (initializeRegistry (joinD '\n' lines)).2.length = lines.length + 1 := by
  have hlines : ∀ l ∈ lines, l ≠ [] ∧ ∀ c ∈ l, c ≠ '\n' := by
    intro l hl
    obtain ⟨hnl, h3⟩ := h l hl
    refine ⟨?_, fun c hc e => hnl (e ▸ hc)⟩
    intro e
    rw [e] at h3
    simp [splitNE, splitAux] at h3
  have hmain : initializeRegistry (joinD '\n' lines) =
      (MPI_SUCCESS, masterNode :: lines.map (fun l => mkNode (splitNE ':' l))) := by
    unfold initializeRegistry parseHostsFile
    rw [splitNE_joinD '\n' lines hlines,
        parseLines_ok lines [masterNode] (fun l hl => (h l hl).2)]
    simp
  exact ⟨hmain, by rw [hmain]; simp⟩

/-- C5 witness: one concrete well-formed line. -/
theorem initializeRegistry_wellformed_witness :
    initializeRegistry (joinD '\n' [("1.2.3.4:5:6").toList]) =
      (MPI_SUCCESS, masterNode ::
        [("1.2.3.4:5:6").toList].map (fun l => mkNode (splitNE ':' l))) ∧
    (initializeRegistry (joinD '\n' [("1.2.3.4:5:6").toList])).2.length =
      [("1.2.3.4:5:6").toList].length + 1 :=
  initializeRegistry_wellformed [("1.2.3.4:5:6").toList] (by decide)

/-- C7: a hosts text whose first malformed line does not split on `:` into
exactly 3 fields makes parsing fail with `MPI_ERR_ARG`, aborting at that
line: the registry holds only the master node and the nodes of the
well-formed lines before it — no (partial) node from the malformed line. -/
theorem parseHostsFile_malformed_aborts (ws : List (List Char)) (b : List Char)
    (rest : List (List Char))
    (hws : ∀ l ∈ ws, ('\n' ∉ l) ∧ (splitNE ':' l).length = 3)
    (hb1 : b ≠ []) (hb2 : '\n' ∉ b) (hb3 : (splitNE ':' b).length ≠ 3)
    (hrest : ∀ l ∈ rest, l ≠ [] ∧ '\n' ∉ l) :
    initializeRegistry (joinD '\n' (ws ++ b :: rest)) =
      (MPI_ERR_ARG, masterNode :: ws.map (fun l => mkNode (splitNE ':' l))) := by
  have hall : ∀ l ∈ ws ++ b :: rest, l ≠ [] ∧ ∀ c ∈ l, c ≠ '\n' := by
    intro l hl
    rcases List.mem_append.mp hl with hl | hl
    · obtain ⟨hnl, h3⟩ := hws l hl
      refine ⟨?_, fun c hc e => hnl (e ▸ hc)⟩
      intro e
      rw [e] at h3
      simp [splitNE, splitAux] at h3
    · rcases List.mem_cons.mp hl with e | hl
      · rw [e]
        exact ⟨hb1, fun c hc e2 => hb2 (e2 ▸ hc)⟩
      · obtain ⟨hne, hnl⟩ := hrest l hl
        exact ⟨hne, fun c hc e => hnl (e ▸ hc)⟩
  unfold initializeRegistry parseHostsFile
  rw [splitNE_joinD '\n' _ hall,
      parseLines_abort ws b rest [masterNode] (fun l hl => (hws l hl).2) hb3]
  simp

/-- C7 witness: a malformed second line between two well-formed ones. -/
theorem parseHostsFile_malformed_aborts_witness :
    initializeRegistry
        (joinD '\n' ([("1.2.3.4:5:6").toList] ++ ("badline").toList :: [("7.8.9.10:1:2").toList])) =
      (MPI_ERR_ARG, masterNode ::
        [("1.2.3.4:5:6").toList].map (fun l => mkNode (splitNE ':' l))) :=
  parseHostsFile_malformed_aborts [("1.2.3.4:5:6").toList] (("badline").toList)
    [("7.8.9.10:1:2").toList] (by decide) (by decide) (by decide) (by decide) (by decide)

/-- The registry of the spec's concrete two-host scenario. -/
def regTwoHosts : List Node :=
  [masterNode,
   { ipAddress := ipv4 10 0 0 2, udpPort := 9000, coreId := 0 },
   { ipAddress := ipv4 10 0 0 3, udpPort := 9000, coreId := 1 }]

/-- C6: the hosts text `"10.0.0.2:9000:0\n10.0.0.3:9000:1\n"` yields the
registry `[rank0 = local, rank1 = {10.0.0.2, 9000, core 0},
rank2 = {10.0.0.3, 9000, core 1}]`; `getCommSize` reports 3; and
`start(["prog","--flag"])` sends exactly one Execute packet to rank 1
(`rankId = 1, coreId = 0, coreCount = 3`) and one to rank 2
(`rankId = 2, coreId = 1, coreCount = 3`), both carrying payload
`"prog --flag"` (stated for any configured packet size that fits the
11-byte command line). -/
theorem scenario_two_hosts (cfg : MpiConfig) (junk : List Nat)
    (hcap : cfg.headerSize + 11 ≤ cfg.maxPacketSize) :
    initializeRegistry (("10.0.0.2:9000:0\n10.0.0.3:9000:1\n").toList) =
      (MPI_SUCCESS, regTwoHosts) ∧
    getCommSize regTwoHosts 0 = (MPI_SUCCESS, 3) ∧
    startProcesses cfg regTwoHosts (fun _ => true) junk
        [("prog").toList, ("--flag").toList] =
      (MPI_SUCCESS,
        [Event.sent 1 (execHdr 1 0 3) (("prog --flag").toList.map Char.toNat),
         Event.sent 2 (execHdr 2 1 3) (("prog --flag").toList.map Char.toNat)]) := by
  refine ⟨by decide, rfl, ?_⟩
  have hcmd : buildCmdline [("prog").toList, ("--flag").toList] = ("prog --flag").toList := by
    decide
  have hlen : (("prog --flag").toList).length = 11 := by decide
  have hpay : execPayload cfg (("prog --flag").toList) junk =
      ("prog --flag").toList.map Char.toNat := by
    unfold execPayload
    rw [List.take_of_length_le (by simpa using hlen.le.trans (by omega)),
        show (("prog --flag").toList).length - (cfg.maxPacketSize - cfg.headerSize) = 0 by omega,
        List.take_zero, List.append_nil]
  have hranks : termRanks regTwoHosts = [1, 2] := rfl
  unfold startProcesses
  rw [hcmd, hranks]
  simp [startGo, nodesGet, regTwoHosts]
  simpa using hpay

/-- C6 witness: the scenario at a concrete packet-size configuration. -/
theorem scenario_two_hosts_witness :
    initializeRegistry (("10.0.0.2:9000:0\n10.0.0.3:9000:1\n").toList) =
      (MPI_SUCCESS, regTwoHosts) ∧
    getCommSize regTwoHosts 0 = (MPI_SUCCESS, 3) ∧
    startProcesses ⟨1448, 16⟩ regTwoHosts (fun _ => true) []
        [("prog").toList, ("--flag").toList] =
      (MPI_SUCCESS,
        [Event.sent 1 (execHdr 1 0 3) (("prog --flag").toList.map Char.toNat),
         Event.sent 2 (execHdr 2 1 3) (("prog --flag").toList.map Char.toNat)]) :=
  scenario_two_hosts ⟨1448, 16⟩ [] (by decide)

/-- C3 counterexample: with a 1448-byte maximum and 16-byte header,
sending `2^30` ints has `2^30 * 4 + 16 > 1448`, yet the 32-bit product
`count * datasize` wraps to 0, the size check passes, and `send` performs a
`sendto` and returns success instead of the claimed BadArgument with no
transport call. -/
theorem send_size_check_wraps :
    send ⟨1448, 16⟩
        [masterNode, { ipAddress := ipv4 10 0 0 2, udpPort := 9000, coreId := 0 }]
        true [] 1073741824 .MPI_INT 1 =
      (MPI_SUCCESS, [Event.sent 1 (sendHdr 1 .MPI_INT 1073741824) []]) ∧
    1448 < 1073741824 * 4 + 16 := by decide

/-- C3 (amended): the size check computes `count * elementWidth(datatype)`
in 32-bit unsigned arithmetic, so `send` fails with BadArgument and
performs no transport call whenever
`(count * elementWidth(datatype)) mod 2^32 + headerSize >
MaximumPacketSize` (the check runs before any lookup or `sendto`); in
particular, with a valid destination and a working transport, sending 5
`MPI_INT` elements (20 payload bytes, far below the wrap) goes through
exactly when `MaximumPacketSize ≥ headerSize + 20`, and fails with
BadArgument and no transport call for any smaller configured maximum. -/
theorem send_size_limit (cfg : MpiConfig) (reg : List Node) (buf : List Int)
    (r : Int) (node : Node) (hnode : nodesGet reg r = some node) :
    (∀ (sok : Bool) (count : Nat) (d : MPI_Datatype) (w : Nat),
        datasize d = some w →
        cfg.maxPacketSize < (count * w) % 4294967296 + cfg.headerSize →
        send cfg reg sok buf count d r = (MPI_ERR_ARG, [])) ∧
    (cfg.headerSize + 20 ≤ cfg.maxPacketSize →
      send cfg reg true buf 5 .MPI_INT r =
        (MPI_SUCCESS, [Event.sent r.toNat (sendHdr r.toNat .MPI_INT 5)
          ((encodeElems .MPI_INT buf).take 20)])) ∧
    (cfg.maxPacketSize < cfg.headerSize + 20 →
      send cfg reg true buf 5 .MPI_INT r = (MPI_ERR_ARG, [])) := by
  refine ⟨?_, ?_, ?_⟩
  · intro sok count d w hw hgt
    cases d with
    | MPI_INT =>
      simp only [datasize, Option.some.injEq] at hw
      subst hw
      simp only [send, datasize]
      rw [if_pos hgt]
    | MPI_UNSIGNED_CHAR =>
      simp only [datasize, Option.some.injEq] at hw
      subst hw
      simp only [send, datasize]
      rw [if_pos hgt]
    | other c => simp [datasize] at hw
  · intro h20
    simp only [send, datasize]
    rw [if_neg (by omega), hnode]
    simp
  · intro hlt
    simp only [send, datasize]
    rw [if_pos (by omega)]

/-- C3 witness: a 40-byte maximum with a 16-byte header admits the 5-int
packet; an oversized (unwrapped) 100-int request is rejected with no
transport call. -/
theorem send_size_limit_witness :
    send ⟨40, 16⟩ [masterNode, { ipAddress := ipv4 1 2 3 4, udpPort := 5, coreId := 6 }]
        true [1, 2, 3, 4, 5] 5 .MPI_INT 1 =
      (MPI_SUCCESS, [Event.sent (1 : Int).toNat (sendHdr (1 : Int).toNat .MPI_INT 5)
        ((encodeElems .MPI_INT [1, 2, 3, 4, 5]).take 20)]) ∧
    send ⟨40, 16⟩ [masterNode, { ipAddress := ipv4 1 2 3 4, udpPort := 5, coreId := 6 }]
        true [1, 2, 3, 4, 5] 100 .MPI_INT 1 = (MPI_ERR_ARG, []) := by
  constructor
  · exact (send_size_limit ⟨40, 16⟩
      [masterNode, { ipAddress := ipv4 1 2 3 4, udpPort := 5, coreId := 6 }]
      [1, 2, 3, 4, 5] 1 { ipAddress := ipv4 1 2 3 4, udpPort := 5, coreId := 6 }
      (by decide)).2.1 (by decide)
  · exact (send_size_limit ⟨40, 16⟩
      [masterNode, { ipAddress := ipv4 1 2 3 4, udpPort := 5, coreId := 6 }]
      [1, 2, 3, 4, 5] 1 { ipAddress := ipv4 1 2 3 4, udpPort := 5, coreId := 6 }
      (by decide)).1 true 100 .MPI_INT 4 rfl (by decide)

/-- The terminate sweep over any remaining rank list: when every `sendto`
succeeds and every reply datagram arrives without a transport error, the
sweep visits every rank with exactly one send and one receive, whatever the
replies contain, and ends in success. -/
theorem terminateGo_sweep (reg : List Node) (sendOk : Nat → Bool) :
    ∀ (rs : List Nat) (ins : List RecvOutcome) (evs : List Event),
    (∀ r ∈ rs, r < reg.length) → (∀ r ∈ rs, sendOk r = true) →
    ins.length = rs.length → (∀ o ∈ ins, o ≠ RecvOutcome.ioError) →
    terminateGo reg sendOk rs ins evs =
      some (MPI_SUCCESS,
        evs ++ (rs.map fun r => [Event.sent r termHdr [], Event.recvd]).flatten) := by
  intro rs
  induction rs with
  | nil => intro ins evs _ _ _ _; simp [terminateGo]
  | cons r rs ih =>
    intro ins evs hlt hok hlen hio
    have hr : r < reg.length := hlt r (List.mem_cons_self _ _)
    have hget : nodesGet reg (r : Int) = some (reg.get ⟨r, hr⟩) := by
      simp [nodesGet, List.get?_eq_get hr]
    cases ins with
    | nil => simp at hlen
    | cons o ins' =>
      cases o with
      | ioError =>
        exact absurd rfl (hio RecvOutcome.ioError (List.mem_cons_self _ _))
      | datagram hdr p =>
        have hok' := hok r (List.mem_cons_self _ _)
        have ih' := ih ins' (evs ++ [Event.sent r termHdr [], Event.recvd])
          (fun x hx => hlt x (List.mem_cons_of_mem _ hx))
          (fun x hx => hok x (List.mem_cons_of_mem _ hx))
          (by simpa using hlen)
          (fun x hx => hio x (List.mem_cons_of_mem _ hx))
        simp [terminateGo, hget, hok', ih']

/-- C4: `terminate` iterates ranks 1..N-1 in registry order with exactly one
Terminate send and one awaited reply per rank, and — as long as no
`sendPacket` or `receivePacket` fails at the transport level — returns
overall success no matter what the replies contain (a non-Terminate
operation or a non-success result field is only logged and skipped). -/
theorem terminate_best_effort (reg : List Node) (sendOk : Nat → Bool)
    (ins : List RecvOutcome)
    (hok : ∀ r ∈ termRanks reg, sendOk r = true)
    (hlen : ins.length = reg.length - 1)
    (hio : ∀ o ∈ ins, o ≠ RecvOutcome.ioError) :
    terminate reg sendOk ins =
      some (MPI_SUCCESS,
        ((termRanks reg).map fun r => [Event.sent r termHdr [], Event.recvd]).flatten) := by
  have hlt : ∀ r ∈ termRanks reg, r < reg.length := by
    intro r hr
    have := List.mem_range'_1.mp hr
    omega
  have hlen' : ins.length = (termRanks reg).length := by
    simp [termRanks]
    omega
  unfold terminate
  simpa using terminateGo_sweep reg sendOk (termRanks reg) ins [] hlt hok hlen' hio

/-- C4 witness: the spec's scenario — a registry of size 4 where rank 2's
reply arrives as a Send-operation packet; ranks 1 and 3 are still processed
and the call succeeds. -/
theorem terminate_best_effort_witness :
    terminate
        [masterNode,
         { ipAddress := ipv4 10 0 0 2, udpPort := 1, coreId := 0 },
         { ipAddress := ipv4 10 0 0 3, udpPort := 2, coreId := 1 },
         { ipAddress := ipv4 10 0 0 4, udpPort := 3, coreId := 2 }]
        (fun _ => true)
        [RecvOutcome.datagram termHdr [],
         RecvOutcome.datagram (sendHdr 0 .MPI_INT 0) [],
         RecvOutcome.datagram termHdr []] =
      some (MPI_SUCCESS,
        ((termRanks
            [masterNode,
             { ipAddress := ipv4 10 0 0 2, udpPort := 1, coreId := 0 },
             { ipAddress := ipv4 10 0 0 3, udpPort := 2, coreId := 1 },
             { ipAddress := ipv4 10 0 0 4, udpPort := 3, coreId := 2 }]).map
          fun r => [Event.sent r termHdr [], Event.recvd]).flatten) :=
  terminate_best_effort _ _ _ (by decide) (by decide) (by decide)

/-- The launch sweep sends one Execute packet per remaining rank, with the
`execPayload` bytes, when every `sendto` succeeds. -/
theorem startGo_all_ok (cfg : MpiConfig) (reg : List Node) (cmdline : List Char)
    (junk : List Nat) (sendOk : Nat → Bool) :
    ∀ (rs : List Nat) (evs : List Event),
    (∀ r ∈ rs, r < reg.length) → (∀ r ∈ rs, sendOk r = true) →
    startGo cfg reg cmdline junk sendOk rs evs =
      (MPI_SUCCESS, evs ++ rs.map fun r =>
        Event.sent r (execHdr r (reg.getD r masterNode).coreId reg.length)
          (execPayload cfg cmdline junk)) := by
  intro rs
  induction rs with
  | nil => intro evs _ _; simp [startGo]
  | cons r rs ih =>
    intro evs hlt hok
    have hr : r < reg.length := hlt r (List.mem_cons_self _ _)
    have hget : nodesGet reg (r : Int) = some (reg.get ⟨r, hr⟩) := by
      simp [nodesGet, List.get?_eq_get hr]
    have hok' := hok r (List.mem_cons_self _ _)
    have ih' := ih (evs ++ [Event.sent r (execHdr r (reg.get ⟨r, hr⟩).coreId reg.length)
        (execPayload cfg cmdline junk)])
      (fun x hx => hlt x (List.mem_cons_of_mem _ hx))
      (fun x hx => hok x (List.mem_cons_of_mem _ hx))
    simpa [startGo, hget, hok', List.getD_eq_get?, List.get?_eq_get hr,
      List.getElem?_eq_getElem hr] using ih'

/-- The launch sweep stops at the first rank whose `sendto` fails, having
sent the packets of the preceding ranks and attempted that rank's. -/
theorem startGo_fail_fast (cfg : MpiConfig) (reg : List Node) (cmdline : List Char)
    (junk : List Nat) (sendOk : Nat → Bool) :
    ∀ (good : List Nat) (r : Nat) (bad : List Nat) (evs : List Event),
    (∀ g ∈ good, g < reg.length) → (∀ g ∈ good, sendOk g = true) →
    r < reg.length → sendOk r = false →
    startGo cfg reg cmdline junk sendOk (good ++ r :: bad) evs =
      (MPI_ERR_IOFAIL, evs ++ (good ++ [r]).map fun g =>
        Event.sent g (execHdr g (reg.getD g masterNode).coreId reg.length)
          (execPayload cfg cmdline junk)) := by
  intro good
  induction good with
  | nil =>
    intro r bad evs _ _ hr hfail
    have hget : nodesGet reg (r : Int) = some (reg.get ⟨r, hr⟩) := by
      simp [nodesGet, List.get?_eq_get hr]
    simp [startGo, hget, hfail, List.getD_eq_get?, List.get?_eq_get hr,
      List.getElem?_eq_getElem hr]
  | cons g good ih =>
    intro r bad evs hlt hok hr hfail
    have hg : g < reg.length := hlt g (List.mem_cons_self _ _)
    have hget : nodesGet reg (g : Int) = some (reg.get ⟨g, hg⟩) := by
      simp [nodesGet, List.get?_eq_get hg]
    have hok' := hok g (List.mem_cons_self _ _)
    have ih' := ih r bad (evs ++ [Event.sent g (execHdr g (reg.get ⟨g, hg⟩).coreId reg.length)
        (execPayload cfg cmdline junk)])
      (fun x hx => hlt x (List.mem_cons_of_mem _ hx))
      (fun x hx => hok x (List.mem_cons_of_mem _ hx)) hr hfail
    simpa [startGo, hget, hok', List.getD_eq_get?, List.get?_eq_get hg,
      List.getElem?_eq_getElem hg, List.getElem?_eq_getElem hr] using ih'

/-- C8 counterexample: with a 20-byte maximum and 16-byte header (payload
capacity 4) and command line "progmore" (8 bytes), the Execute datagram is
sent with `sizeof(Header) + cmdline.length() = 24 > 20` bytes — its payload
is the 4-byte truncated prefix followed by 4 unspecified bytes read past the
packet buffer (here the oracle bytes 1,2,3,4), not the claimed
capacity-truncated command line. -/
theorem startProcesses_no_send_truncation :
    startProcesses ⟨20, 16⟩
        [masterNode, { ipAddress := ipv4 10 0 0 2, udpPort := 9000, coreId := 0 }]
        (fun _ => true) [1, 2, 3, 4] [("progmore").toList] =
      (MPI_SUCCESS,
        [Event.sent 1 (execHdr 1 0 2) [112, 114, 111, 103, 1, 2, 3, 4]]) ∧
    ([112, 114, 111, 103, 1, 2, 3, 4] : List Nat) ≠
      ((("progmore").toList.take 4).map Char.toNat) ∧
    20 < 16 + (("progmore").toList).length := by decide

/-- C8 (amended): `start` builds one command line and, for every rank
1..N-1 in registry order, sends an Execute packet; the bytes copied into
the packet buffer are the command line truncated to
`MaximumPacketSize - headerSize`, but the datagram is sent with
`headerSize + cmdline.length` bytes with no truncation of the send size —
a command line that fits the capacity is sent whole, while an over-capacity
one produces an oversized datagram carrying unspecified bytes after the
truncated prefix. The sweep fails fast, returning the first `sendto` I/O
failure without attempting the remaining ranks, and returns success only
when every rank's packet was sent. -/
theorem startProcesses_fail_fast (cfg : MpiConfig) (reg : List Node)
    (sendOk : Nat → Bool) (junk : List Nat) (argv : List (List Char)) :
    ((buildCmdline argv).length ≤ cfg.maxPacketSize - cfg.headerSize →
      execPayload cfg (buildCmdline argv) junk = (buildCmdline argv).map Char.toNat) ∧
    ((∀ r ∈ termRanks reg, sendOk r = true) →
      startProcesses cfg reg sendOk junk argv =
        (MPI_SUCCESS, (termRanks reg).map fun r =>
          Event.sent r (execHdr r (reg.getD r masterNode).coreId reg.length)
            (execPayload cfg (buildCmdline argv) junk))) ∧
    (∀ (good : List Nat) (r : Nat) (bad : List Nat),
      termRanks reg = good ++ r :: bad →
      (∀ g ∈ good, sendOk g = true) → sendOk r = false →
      startProcesses cfg reg sendOk junk argv =
        (MPI_ERR_IOFAIL, (good ++ [r]).map fun g =>
          Event.sent g (execHdr g (reg.getD g masterNode).coreId reg.length)
            (execPayload cfg (buildCmdline argv) junk))) := by
  have hlt : ∀ r ∈ termRanks reg, r < reg.length := by
    intro r hr
    have := List.mem_range'_1.mp hr
    omega
  refine ⟨?_, ?_, ?_⟩
  · intro hfit
    unfold execPayload
    rw [List.take_of_length_le (by simpa using hfit),
        show (buildCmdline argv).length - (cfg.maxPacketSize - cfg.headerSize) = 0 by omega,
        List.take_zero, List.append_nil]
  · intro hok
    unfold startProcesses
    simpa using startGo_all_ok cfg reg (buildCmdline argv) junk sendOk (termRanks reg) [] hlt hok
  · intro good r bad hsplit hgood hfail
    have hltg : ∀ g ∈ good, g < reg.length := by
      intro g hg
      exact hlt g (hsplit ▸ List.mem_append_left _ hg)
    have hltr : r < reg.length :=
      hlt r (hsplit ▸ List.mem_append_right _ (List.mem_cons_self _ _))
    unfold startProcesses
    rw [hsplit]
    simpa using startGo_fail_fast cfg reg (buildCmdline argv) junk sendOk good r bad []
      hltg hgood hltr hfail

/-- The three-node registry used to witness the launch sweep. -/
def launchReg : List Node :=
  [masterNode,
   { ipAddress := ipv4 1 1 1 1, udpPort := 7, coreId := 4 },
   { ipAddress := ipv4 2 2 2 2, udpPort := 8, coreId := 5 }]

/-- C8 witness: with rank 2's `sendto` failing, the sweep sends to rank 1,
attempts rank 2, and returns the I/O failure without further ranks. -/
theorem startProcesses_fail_fast_witness :
    startProcesses ⟨40, 8⟩ launchReg (fun r => r != 2) [] [("prog").toList] =
      (MPI_ERR_IOFAIL, ([1] ++ [2]).map fun g =>
        Event.sent g (execHdr g (launchReg.getD g masterNode).coreId launchReg.length)
          (execPayload ⟨40, 8⟩ (buildCmdline [("prog").toList]) [])) :=
  (startProcesses_fail_fast ⟨40, 8⟩ launchReg (fun r => r != 2) [] [("prog").toList]).2.2
    [1] 2 [] (by decide) (by decide) (by decide)

/-- The reassembly loop ignores any leading run of non-Receive datagrams,
consuming one `recvfrom` each, while no element has been copied yet. -/
theorem recvLoop_skip (d : MPI_Datatype) (count : Nat) (hcount : 0 < count) :
    ∀ (pre rest : List RecvOutcome) (buf : List Int) (evs : List Event),
    (∀ o ∈ pre, ∃ h p, o = RecvOutcome.datagram h p ∧ h.operation ≠ MpiOp.MpiOpRecv) →
    recvLoop d count (pre ++ rest) buf 0 evs =
      recvLoop d count rest buf 0 (evs ++ List.replicate pre.length Event.recvd) := by
  intro pre
  induction pre with
  | nil => intro rest buf evs _; simp
  | cons o pre ih =>
    intro rest buf evs h
    obtain ⟨hdr, p, rfl, hop⟩ := h o (List.mem_cons_self _ _)
    have ih' := ih rest buf (evs ++ [Event.recvd]) (fun x hx => h x (List.mem_cons_of_mem _ hx))
    simp [recvLoop, hcount, hop, ih', List.replicate_succ]

/-- C9: a `receive` call for a positive element count with a datatype
outside the supported enumeration fails with
`MPI_ERR_UNSUPPORTED_DATAREP` as soon as a Receive-operation response
packet with nonzero `datacount` arrives (any earlier non-Receive datagrams
are discarded), and the output buffer keeps exactly its prior contents — no
element of the failing call was copied before the first one hit the
unsupported-datatype branch. -/
theorem receive_unsupported_datarep (cfg : MpiConfig) (reg : List Node) (r : Int)
    (node : Node) (hnode : nodesGet reg r = some node)
    (c : Nat) (count : Nat) (hcount : 0 < count)
    (pre : List RecvOutcome)
    (hpre : ∀ o ∈ pre, ∃ h p, o = RecvOutcome.datagram h p ∧ h.operation ≠ MpiOp.MpiOpRecv)
    (hdr : Header) (payload : List Nat) (rest : List RecvOutcome)
    (hop : hdr.operation = MpiOp.MpiOpRecv) (hdc : 0 < hdr.datacount)
    (buf : List Int) :
    receive cfg reg true (pre ++ RecvOutcome.datagram hdr payload :: rest)
        buf count (.other c) r =
      some (MPI_ERR_UNSUPPORTED_DATAREP, buf,
        Event.sent r.toNat (recvReqHdr r.toNat (.other c) count) [] ::
          (List.replicate pre.length Event.recvd ++ [Event.recvd])) := by
  have hcopy : copyLoop (.other c) payload 0 hdr.datacount buf 0 =
      .error (MPI_ERR_UNSUPPORTED_DATAREP, buf) := by
    cases hk : hdr.datacount with
    | zero => omega
    | succ k => rfl
  unfold receive
  rw [hnode]
  simp only [if_pos]
  rw [recvLoop_skip (.other c) count hcount pre _ buf _ hpre]
  simp [recvLoop, hcount, hop, hcopy]

/-- C9 witness: after one discarded Send-operation datagram, a Receive
response with `datacount = 3` under the unsupported datatype code 7 fails
the call and leaves the buffer `[9, 9, 9]` untouched. -/
theorem receive_unsupported_datarep_witness :
    receive ⟨1448, 16⟩
        [masterNode, { ipAddress := ipv4 10 0 0 2, udpPort := 9000, coreId := 0 }] true
        ([RecvOutcome.datagram (sendHdr 1 .MPI_INT 0) []] ++
          RecvOutcome.datagram
            { operation := .MpiOpRecv, result := MPI_SUCCESS, rankId := 1
              datatype := .other 7, datacount := 3, coreId := 0, coreCount := 0 }
            [5, 6, 7] :: [])
        [9, 9, 9] 3 (.other 7) 1 =
      some (MPI_ERR_UNSUPPORTED_DATAREP, [9, 9, 9],
        Event.sent (1 : Int).toNat (recvReqHdr (1 : Int).toNat (.other 7) 3) [] ::
          (List.replicate 1 Event.recvd ++ [Event.recvd])) :=
  receive_unsupported_datarep ⟨1448, 16⟩
    [masterNode, { ipAddress := ipv4 10 0 0 2, udpPort := 9000, coreId := 0 }] 1
    { ipAddress := ipv4 10 0 0 2, udpPort := 9000, coreId := 0 } (by decide)
    7 3 (by decide)
    [RecvOutcome.datagram (sendHdr 1 .MPI_INT 0) []]
    (by
      intro o ho
      refine ⟨sendHdr 1 .MPI_INT 0, [], ?_, by decide⟩
      simpa using ho)
    { operation := .MpiOpRecv, result := MPI_SUCCESS, rankId := 1
      datatype := .other 7, datacount := 3, coreId := 0, coreCount := 0 }
    [5, 6, 7] [] rfl (by decide) [9, 9, 9]

end MpiHost
